import Mathlib

/-!
Verification of the ci-cd-demo repository.

Part A embeds the Express service endpoints that exist as JavaScript source
(`services/order-service/index.js` and the health handlers of the user,
product and notification services).  JavaScript values that the handlers
inspect are modelled by `JsVal` (strings, rational numbers standing for the
exact decimal literals in the source, NaN, null, booleans, undefined), and
JavaScript truthiness and `parseInt` are modelled explicitly.

Part B models the change-driven selective deployment orchestrator.  The
repository ships no orchestration program: the workflow is only described
(docs/INDEPENDENT_DEPLOYMENT.md, the README's "CI/CD Pipeline" section), so
the orchestrator definitions below are modelled from the specification's
component design (unit registry, trigger interpreter, change resolver,
per-unit deployment state machine, bounded-concurrency scheduler, outcome
aggregator) and each carries a doc comment saying so.
-/

set_option maxRecDepth 8192

/-- A JavaScript value as the embedded handlers distinguish them: a string, a
number (rationals stand for the decimal literals of the source; no float
arithmetic is performed by any embedded endpoint), NaN, null, a boolean, or
undefined (an absent body field). -/
inductive JsVal where
  | vStr (s : String)
  | vNum (q : ℚ)
  | vNaN
  | vNull
  | vBool (b : Bool)
  | vUndef
  deriving DecidableEq

/-- JavaScript truthiness: `""`, `0`, `NaN`, `null`, `false` and `undefined`
are falsy, everything else modelled here is truthy. -/
def JsVal.truthy : JsVal → Bool
  | .vStr s => s ≠ ""
  | .vNum q => q ≠ 0
  | .vNaN => false
  | .vNull => false
  | .vBool b => b
  | .vUndef => false

/-- Digits-prefix accumulator for the `parseInt` model: consumes leading
decimal digits of `cs`, returning the accumulated value, or none when no
digit was consumed. -/
def parseDigits : List Char → Option Nat → Option Nat
  | c :: cs, acc =>
    if c.isDigit then
      parseDigits cs (some ((acc.getD 0) * 10 + (c.toNat - '0'.toNat)))
    else acc
  | [], acc => acc

/-- `parseInt` on a string: skip leading whitespace, read an optional sign,
then a longest prefix of decimal digits; no digit means NaN. -/
def jsParseIntStr (s : String) : JsVal :=
  let cs := s.toList.dropWhile (fun c => c = ' ' ∨ c = '\t' ∨ c = '\n')
  match cs with
  | '-' :: rest =>
    match parseDigits rest none with
    | some n => .vNum (-(n : ℚ))
    | none => .vNaN
  | '+' :: rest =>
    match parseDigits rest none with
    | some n => .vNum (n : ℚ)
    | none => .vNaN
  | rest =>
    match parseDigits rest none with
    | some n => .vNum (n : ℚ)
    | none => .vNaN

/-- The JavaScript `parseInt` applied to a value, as used for
`parseInt(quantity)` in the order service: numbers are truncated toward
zero (via their decimal rendering), strings are parsed, and every other
value yields NaN. -/
def jsParseInt : JsVal → JsVal
  | .vStr s => jsParseIntStr s
  | .vNum q => .vNum ((q.num / (q.den : ℤ) : ℤ) : ℚ)
  | .vNaN => .vNaN
  | .vNull => .vNaN
  | .vBool _ => .vNaN
  | .vUndef => .vNaN

/-- An HTTP response as the embedded handlers produce it: a status code and a
JSON body.  `res.json(x)` is status 200 with body `x`;
`res.status(c).json(x)` is status `c` with body `x`. -/
structure HttpResponse (β : Type) where
  statusCode : Nat
  body : β
  deriving DecidableEq

/-- The body shape shared by the four `/health` handlers:
`{ status, service, timestamp }`. -/
structure HealthBody where
  status : String
  service : String
  timestamp : String
  deriving DecidableEq

/-- A record of the user service's in-memory `users` array
(`services/user-service/index.js`). -/
structure UserRec where
  id : String
  name : String
  email : String
  createdAt : String
  deriving DecidableEq

/-- A record of the product service's in-memory `products` array. -/
structure ProductRec where
  id : String
  name : String
  price : ℚ
  category : String
  stock : Nat
  createdAt : String
  deriving DecidableEq

/-- A record of the notification service's in-memory `notifications` array. -/
structure NotifRec where
  id : String
  type : String
  recipient : String
  message : String
  createdAt : String
  deriving DecidableEq

/-- A record of the order service's in-memory `orders` array
(`services/order-service/index.js`).  `quantity` and `totalAmount` are
JavaScript values because `parseInt` can produce NaN and `totalAmount` is
taken from the request body. -/
structure OrderRec where
  id : String
  userId : JsVal
  productId : JsVal
  quantity : JsVal
  totalAmount : JsVal
  status : String
  createdAt : String
  deriving DecidableEq

/-- `GET /health` of the user service: ignores the store entirely and
answers 200 with status "healthy" (`services/user-service/index.js`). -/
def userServiceHealth (_users : List UserRec) (now : String) :
    HttpResponse HealthBody :=
  ⟨200, ⟨"healthy", "user-service", now⟩⟩

/-- `GET /health` of the product service. -/
def productServiceHealth (_products : List ProductRec) (now : String) :
    HttpResponse HealthBody :=
  ⟨200, ⟨"healthy", "product-service", now⟩⟩

/-- `GET /health` of the notification service. -/
def notificationServiceHealth (_notifications : List NotifRec) (now : String) :
    HttpResponse HealthBody :=
  ⟨200, ⟨"healthy", "notification-service", now⟩⟩

/-- `GET /health` of the order service. -/
def orderServiceHealth (_orders : List OrderRec) (now : String) :
    HttpResponse HealthBody :=
  ⟨200, ⟨"healthy", "order-service", now⟩⟩

/-- The request body of `POST /orders`; an absent field is `vUndef`. -/
structure OrdersPostBody where
  userId : JsVal
  productId : JsVal
  quantity : JsVal
  totalAmount : JsVal
  deriving DecidableEq

/-- The JSON body of a `POST /orders` response: `{success: true, data}` on
creation, `{success: false, error}` on validation failure. -/
inductive OrdersPostResult where
  | success (data : OrderRec)
  | failure (error : String)
  deriving DecidableEq

/-- Outcome of the awaited `axios.post` to the notification service: the
call either succeeds or throws with a message. -/
inductive NotifyOutcome where
  | ok
  | failed (msg : String)
  deriving DecidableEq

/-- `POST /orders` of the order service (`services/order-service/index.js`,
lines 56-94): validate `userId`, `productId`, `quantity` by truthiness
(400 when any is falsy); otherwise build the new order, push it onto the
store, attempt the notification (a failure is only logged by the
`catch`), and answer 201 with the new order.  Returns the updated store
and the response.  The new-order literal is split out below as
`newOrderOf`. -/
def newOrderOf (orders : List OrderRec) (body : OrdersPostBody) (now : String) :
    OrderRec :=
  { id := toString (orders.length + 1)
    userId := body.userId
    productId := body.productId
    quantity := jsParseInt body.quantity
    totalAmount := if body.totalAmount.truthy then body.totalAmount else .vNum 0
    status := "pending"
    createdAt := now }

/-- The `POST /orders` handler itself: validation, store push, notification
attempt (failure only logged), 201 response. -/
def postOrders (orders : List OrderRec) (body : OrdersPostBody)
    (notify : NotifyOutcome) (now : String) :
    List OrderRec × HttpResponse OrdersPostResult :=
  if ¬ body.userId.truthy ∨ ¬ body.productId.truthy ∨ ¬ body.quantity.truthy then
    (orders, ⟨400, .failure "userId, productId, and quantity are required"⟩)
  else
    let newOrder : OrderRec := newOrderOf orders body now
    -- the catch branch only logs; order creation does not fail on a
    -- notification failure
    match notify with
    | .ok => (orders ++ [newOrder], ⟨201, .success newOrder⟩)
    | .failed _ => (orders ++ [newOrder], ⟨201, .success newOrder⟩)

/-- The initial `orders` array of the order service (its `createdAt` is the
process start time, passed in as `t0`). -/
def initialOrders (t0 : String) : List OrderRec :=
  [{ id := "1", userId := .vStr "1", productId := .vStr "1",
     quantity := .vNum 2, totalAmount := .vNum (199998/100),
     status := "completed", createdAt := t0 }]

example : (postOrders (initialOrders "t0")
    ⟨.vStr "1", .vStr "2", .vStr "3", .vUndef⟩ .ok "t1").2.statusCode = 201 := by
  decide

example : (postOrders (initialOrders "t0")
    ⟨.vStr "1", .vStr "2", .vNum 0, .vUndef⟩ .ok "t1").2.statusCode = 400 := by
  decide

example : jsParseInt (.vStr "42abc") = .vNum 42 := by decide
example : jsParseInt (.vStr "-7") = .vNum (-7) := by decide
example : jsParseInt (.vStr "abc") = .vNaN := by decide

/-- Modelled from the spec: the orchestrator is described in the repository
only as documentation (docs/INDEPENDENT_DEPLOYMENT.md, the README), with no
workflow program under version control here.  `DeployUnit` is the spec's
`Unit` data model: name, path prefix, port, dependency names. -/
structure DeployUnit where
  name : String
  pathPrefix : String
  port : Nat
  dependsOn : List String
  deriving DecidableEq

/-- Modelled from the spec: the four selection-request modes. -/
inductive SelectionMode where
  | AutoDiff
  | ManualList
  | AllUnits
  | WorkflowChanged
  deriving DecidableEq

/-- Modelled from the spec: a `SelectionRequest`; `changedPaths` is
meaningful for `AutoDiff`, `explicitUnits` for `ManualList`. -/
structure SelectionRequest where
  mode : SelectionMode
  changedPaths : List String
  explicitUnits : List String
  deriving DecidableEq

/-- Modelled from the spec: a `SelectionResult` with the selected unit
names and the per-unit reason strings. -/
structure SelectionResult where
  selected : List String
  reasons : List (String × String)
  deriving DecidableEq

/-- Modelled from the spec: the error taxonomy of §7. -/
inductive ErrorKind where
  | UnknownUnit
  | BuildError
  | PublishError
  | DeployError
  | HealthTimeout
  deriving DecidableEq

/-- Modelled from the spec: the per-unit deployment states. -/
inductive DeploymentState where
  | Pending
  | Building
  | Publishing
  | Deploying
  | Verifying
  | Succeeded
  | Failed
  | Skipped
  deriving DecidableEq

/-- The orchestration workflow-definition path of the described pipeline. -/
def workflowDefinitionPath : String := ".github/workflows/deploy.yml"

/-- Comma splitting of the manual services list (the semantics of a
single-character `splitOn`), written structurally so it evaluates. -/
def splitCommaAux : List Char → List Char → List String
  | [], cur => [String.mk cur.reverse]
  | c :: cs, cur =>
    if c = ',' then String.mk cur.reverse :: splitCommaAux cs []
    else splitCommaAux cs (c :: cur)

/-- The comma-separated parse of the manual services input. -/
def splitComma (s : String) : List String := splitCommaAux s.toList []

/-- Lower-casing for the case-insensitive "all" comparison, written
structurally so it evaluates. -/
def lowerString (s : String) : String := String.mk (s.toList.map Char.toLower)

/-- Modelled from the spec: the two external trigger shapes the Trigger
Interpreter normalizes (an automatic push with its changed-path set, and a
manual dispatch with its free-text services list; a workflow-definition
change is a push whose paths contain `workflowDefinitionPath`). -/
inductive TriggerShape where
  | push (changedPaths : List String)
  | manual (services : String)

/-- Modelled from the spec (§4.2 Trigger Interpreter, absent from src/):
workflow-definition change forces `WorkflowChanged`; a manual list equal to
"all" case-insensitively gives `AllUnits`; any other manual list is split on
commas into `ManualList`, failing with `UnknownUnit` when a name is not in
the registry; any other push is `AutoDiff`. -/
def interpretTrigger (reg : List DeployUnit) :
    TriggerShape → Except ErrorKind SelectionRequest
  | .push changedPaths =>
    if workflowDefinitionPath ∈ changedPaths then
      .ok ⟨.WorkflowChanged, changedPaths, []⟩
    else
      .ok ⟨.AutoDiff, changedPaths, []⟩
  | .manual services =>
    if lowerString services = "all" then
      .ok ⟨.AllUnits, [], []⟩
    else
      let names := splitComma services
      if names.all (fun n => reg.any (fun u => decide (u.name = n))) then
        .ok ⟨.ManualList, [], names⟩
      else
        .error .UnknownUnit

/-- Modelled from the spec (§4.3 Change Resolver, absent from src/):
`AllUnits`/`WorkflowChanged` select the whole registry, `ManualList`
selects the explicit units verbatim, and `AutoDiff` selects a unit iff
some changed path starts with its path prefix. -/
def resolve (req : SelectionRequest) (reg : List DeployUnit) : SelectionResult :=
  match req.mode with
  | .AllUnits =>
    ⟨reg.map (·.name), reg.map (fun u => (u.name, "all"))⟩
  | .WorkflowChanged =>
    ⟨reg.map (·.name), reg.map (fun u => (u.name, "workflow-changed"))⟩
  | .ManualList =>
    ⟨req.explicitUnits, req.explicitUnits.map (fun n => (n, "manual"))⟩
  | .AutoDiff =>
    let hit := reg.filter
      (fun u => req.changedPaths.any (fun p => u.pathPrefix.toList.isPrefixOf p.toList))
    ⟨hit.map (·.name), hit.map (fun u => (u.name, "path-changed"))⟩

/-- Modelled from the spec: the outcomes of a unit's four effectful stages
against the external collaborators — build, registry push, cluster rollout,
and health verification within the polling deadline. -/
structure StageOutcomes where
  buildOk : Bool
  pushOk : Bool
  deployOk : Bool
  healthy : Bool
  deriving DecidableEq

/-- Modelled from the spec (§4.4): the terminal state a unit's state
machine reaches from Building when no dependency interferes — Failed at the
first failing stage, Succeeded when all four stages pass. -/
def stageResult (o : StageOutcomes) : DeploymentState :=
  if ¬ o.buildOk then .Failed
  else if ¬ o.pushOk then .Failed
  else if ¬ o.deployOk then .Failed
  else if ¬ o.healthy then .Failed
  else .Succeeded

/-- The stage and error kind a failing unit reports, for summary lines. -/
def stageErrorText (o : StageOutcomes) : String :=
  if ¬ o.buildOk then "Building: BuildError"
  else if ¬ o.pushOk then "Publishing: PublishError"
  else if ¬ o.deployOk then "Deploying: DeployError"
  else "Verifying: HealthTimeout"

/-- Whether an already-finished record is Failed or Skipped. -/
def recFailed (acc : List (String × DeploymentState)) (d : String) : Bool :=
  match acc.lookup d with
  | some .Failed => true
  | some .Skipped => true
  | _ => false

/-- Modelled from the spec (§4.5 Execution Scheduler, absent from src/):
the per-unit terminal records of one completed invocation, computed over a
dependency-ordered registry — a selected unit whose selected dependency
finished Failed or Skipped is Skipped (transitive propagation), otherwise
its stages run via `stageResult`; unselected units get no record. -/
def finalRecords (env : String → StageOutcomes) (sel : List String) :
    List DeployUnit → List (String × DeploymentState) →
      List (String × DeploymentState)
  | [], acc => acc
  | u :: rest, acc =>
    if u.name ∈ sel then
      let st :=
        if u.dependsOn.any (fun d => decide (d ∈ sel) && recFailed acc d) then
          DeploymentState.Skipped
        else stageResult (env u.name)
      finalRecords env sel rest (acc ++ [(u.name, st)])
    else
      finalRecords env sel rest acc

/-- The scheduler run over the whole registry, starting from no records. -/
def runScheduler (env : String → StageOutcomes) (sel : List String)
    (reg : List DeployUnit) : List (String × DeploymentState) :=
  finalRecords env sel reg []

/-- Modelled from the spec: the overall status of a `DeploymentSummary`. -/
inductive OverallStatus where
  | AllSucceeded
  | PartialFailure
  | AllSkipped
  deriving DecidableEq

/-- Modelled from the spec: the `DeploymentSummary` artifact. -/
structure DeploymentSummary where
  perUnit : List (String × DeploymentState)
  overallStatus : OverallStatus
  revision : String
  deriving DecidableEq

/-- Modelled from the spec (§4.6 Outcome Aggregator, absent from src/):
AllSkipped when every record (of possibly none) is Skipped, else
AllSucceeded when every record is Succeeded, else PartialFailure. -/
def overallOf (records : List (String × DeploymentState)) : OverallStatus :=
  if records.all (fun r => decide (r.2 = DeploymentState.Skipped)) then
    .AllSkipped
  else if records.all (fun r => decide (r.2 = DeploymentState.Succeeded)) then
    .AllSucceeded
  else
    .PartialFailure

/-- Modelled from the spec: `summarize(records, revision)`. -/
def summarize (records : List (String × DeploymentState)) (revision : String) :
    DeploymentSummary :=
  ⟨records, overallOf records, revision⟩

/-- Modelled from the spec (§6): the process exit signal — success iff the
overall status is AllSucceeded or AllSkipped. -/
def exitSuccess (s : DeploymentSummary) : Bool :=
  match s.overallStatus with
  | .AllSucceeded => true
  | .AllSkipped => true
  | .PartialFailure => false

/-- Modelled from the spec (§4.6): the per-unit summary line. -/
def summaryLine (sel : List String) (records : List (String × DeploymentState))
    (env : String → StageOutcomes) (n : String) : String :=
  if n ∈ sel then
    match records.lookup n with
    | some .Succeeded => "deployed"
    | some .Skipped => "skipped — dependency failed"
    | some .Failed => "failed — " ++ stageErrorText (env n)
    | _ => "no terminal state — defect"
  else
    "skipped — no change detected"

/-- Modelled from the spec: the whole invocation — interpret the trigger
(failing the invocation before any scheduling on `UnknownUnit`), resolve
the selection, drive the scheduler, aggregate the summary. -/
def runPipeline (reg : List DeployUnit) (t : TriggerShape)
    (env : String → StageOutcomes) (revision : String) :
    Except ErrorKind DeploymentSummary :=
  match interpretTrigger reg t with
  | .error e => .error e
  | .ok req =>
    .ok (summarize (runScheduler env (resolve req reg).selected reg) revision)

/-- The five-unit registry of the demo repository (names, path prefixes and
ports from the documentation; the source shows no deployment ordering, so
`dependsOn` is empty). -/
def demoRegistry : List DeployUnit :=
  [⟨"api-gateway", "services/api-gateway/", 3000, []⟩,
   ⟨"user-service", "services/user-service/", 3001, []⟩,
   ⟨"product-service", "services/product-service/", 3002, []⟩,
   ⟨"order-service", "services/order-service/", 3003, []⟩,
   ⟨"notification-service", "services/notification-service/", 3004, []⟩]

example :
    (resolve ⟨.AutoDiff, ["services/user-service/index.js"], []⟩
      demoRegistry).selected = ["user-service"] := by decide

example :
    (resolve ⟨.AutoDiff, ["README.md"], []⟩ demoRegistry).selected = [] := by
  decide

/-- Modelled from the spec (§4.5, §5): a fixed scheduling context — the
registry, the selected unit names, the stage outcomes the external
collaborators will return per unit, and the configured maximum
concurrency. -/
structure Sched where
  reg : List DeployUnit
  sel : List String
  env : String → StageOutcomes
  maxConcurrency : Nat

/-- The per-unit-name deployment states of one invocation in flight. -/
def StateMap : Type := String → DeploymentState

/-- Every machine starts in Pending (only selected names are ever moved). -/
def initState : StateMap := fun _ => .Pending

/-- Point update of a state map. -/
def updateSt (s : StateMap) (n : String) (st : DeploymentState) : StateMap :=
  fun m => if m = n then st else s m

/-- Terminal states: Succeeded, Failed, Skipped. -/
def isTerminal : DeploymentState → Bool
  | .Succeeded => true
  | .Failed => true
  | .Skipped => true
  | _ => false

/-- States that occupy a concurrency slot: Building, Publishing, Deploying,
Verifying. -/
def isActive : DeploymentState → Bool
  | .Building => true
  | .Publishing => true
  | .Deploying => true
  | .Verifying => true
  | _ => false

/-- How many selected units currently occupy a concurrency slot. -/
def activeCount (sel : List String) (s : StateMap) : Nat :=
  sel.countP (fun n => isActive (s n))

/-- Every selected dependency of `u` has terminated Succeeded. -/
def depsSucceeded (S : Sched) (s : StateMap) (u : DeployUnit) : Prop :=
  ∀ d ∈ u.dependsOn, d ∈ S.sel → s d = .Succeeded

/-- Some selected dependency of `u` has terminated Failed or Skipped. -/
def depFailed (S : Sched) (s : StateMap) (u : DeployUnit) : Prop :=
  ∃ d ∈ u.dependsOn, d ∈ S.sel ∧ (s d = .Failed ∨ s d = .Skipped)

/-- Modelled from the spec (§4.4 state machine and §4.5 scheduler, absent
from src/): one scheduling step.  A Pending selected unit starts Building
when every selected dependency has Succeeded and a concurrency slot is
free; it moves straight to Skipped when a selected dependency ended Failed
or Skipped (transitive propagation); the four stages advance through
Building → Publishing → Deploying → Verifying → Succeeded, falling to
Failed at the first stage whose collaborator outcome is negative.
Terminal states have no outgoing step. -/
inductive Step (S : Sched) : StateMap → StateMap → Prop where
  | start {s : StateMap} (u : DeployUnit) (hreg : u ∈ S.reg)
      (hsel : u.name ∈ S.sel) (hp : s u.name = .Pending)
      (hdeps : depsSucceeded S s u)
      (hslot : activeCount S.sel s < S.maxConcurrency) :
      Step S s (updateSt s u.name .Building)
  | skipDep {s : StateMap} (u : DeployUnit) (hreg : u ∈ S.reg)
      (hsel : u.name ∈ S.sel) (hp : s u.name = .Pending)
      (hdep : depFailed S s u) :
      Step S s (updateSt s u.name .Skipped)
  | build {s : StateMap} (u : DeployUnit) (hreg : u ∈ S.reg)
      (hsel : u.name ∈ S.sel) (h : s u.name = .Building) :
      Step S s (updateSt s u.name
        (if (S.env u.name).buildOk then .Publishing else .Failed))
  | publish {s : StateMap} (u : DeployUnit) (hreg : u ∈ S.reg)
      (hsel : u.name ∈ S.sel) (h : s u.name = .Publishing) :
      Step S s (updateSt s u.name
        (if (S.env u.name).pushOk then .Deploying else .Failed))
  | deploy {s : StateMap} (u : DeployUnit) (hreg : u ∈ S.reg)
      (hsel : u.name ∈ S.sel) (h : s u.name = .Deploying) :
      Step S s (updateSt s u.name
        (if (S.env u.name).deployOk then .Verifying else .Failed))
  | verify {s : StateMap} (u : DeployUnit) (hreg : u ∈ S.reg)
      (hsel : u.name ∈ S.sel) (h : s u.name = .Verifying) :
      Step S s (updateSt s u.name
        (if (S.env u.name).healthy then .Succeeded else .Failed))

/-- A state map an invocation can be in. -/
def Reachable (S : Sched) (s : StateMap) : Prop :=
  Relation.ReflTransGen (Step S) initState s

/-- Every selected unit has reached a terminal state. -/
def Completed (S : Sched) (s : StateMap) : Prop :=
  ∀ n ∈ S.sel, isTerminal (s n) = true

/-- The deployment records of a state map: one per selected name. -/
def recordsOf (sel : List String) (s : StateMap) :
    List (String × DeploymentState) :=
  sel.map (fun n => (n, s n))

/-- Distance of a state from termination; every step strictly decreases the
summed rank, so every invocation ends. -/
def stateRank : DeploymentState → Nat
  | .Pending => 5
  | .Building => 4
  | .Publishing => 3
  | .Deploying => 2
  | .Verifying => 1
  | _ => 0

/-- The termination measure of a state map over the selected names. -/
def measureOf (sel : List String) (s : StateMap) : Nat :=
  (sel.map (fun n => stateRank (s n))).sum

/-- Name `d` appears in `u`'s dependsOn directly, or transitively through
selected intermediate units (the channel along which failure propagates). -/
inductive DependsOnTrans (reg : List DeployUnit) (sel : List String) :
    String → String → Prop where
  | direct {u : DeployUnit} {d : String} :
      u ∈ reg → d ∈ u.dependsOn → DependsOnTrans reg sel u.name d
  | trans {u : DeployUnit} {w d : String} :
      u ∈ reg → w ∈ u.dependsOn → w ∈ sel →
      DependsOnTrans reg sel w d → DependsOnTrans reg sel u.name d

/-- The registry suffix is dependency-ordered relative to `sel`: each unit's
selected dependencies are named among the already-seen names. -/
def depsBeforeSel (sel : List String) : List String → List DeployUnit → Prop
  | _, [] => True
  | seen, u :: rest =>
    (∀ d ∈ u.dependsOn, d ∈ sel → d ∈ seen)
    ∧ depsBeforeSel sel (u.name :: seen) rest

/-- The stage bookkeeping a state implies about its unit's collaborator
outcomes: a unit in Publishing has built, one in Deploying has built and
pushed, and so on; a terminal Succeeded or Failed matches `stageResult`. -/
def stageConsistent (o : StageOutcomes) : DeploymentState → Prop
  | .Pending => True
  | .Building => True
  | .Publishing => o.buildOk = true
  | .Deploying => o.buildOk = true ∧ o.pushOk = true
  | .Verifying => o.buildOk = true ∧ o.pushOk = true ∧ o.deployOk = true
  | .Succeeded => stageResult o = .Succeeded
  | .Failed => stageResult o = .Failed
  | .Skipped => True

/-- The scheduler invariant: a selected unit that is past Pending and not
Skipped has all selected dependencies Succeeded; a Skipped one has a
Failed-or-Skipped selected dependency; and every unit's state is
stage-consistent with its collaborator outcomes. -/
def SchedInv (S : Sched) (s : StateMap) : Prop :=
  ∀ u ∈ S.reg, u.name ∈ S.sel →
    ((s u.name ≠ .Pending ∧ s u.name ≠ .Skipped) → depsSucceeded S s u)
    ∧ (s u.name = .Skipped → depFailed S s u)
    ∧ stageConsistent (S.env u.name) (s u.name)

/-- The registry names are distinct. -/
def NamesNodup (reg : List DeployUnit) : Prop :=
  (reg.map (·.name)).Nodup

/-- Collaborator outcomes with every stage passing for every unit. -/
def envAllOk : String → StageOutcomes := fun _ => ⟨true, true, true, true⟩

/-- Collaborator outcomes where the user service's image build fails
(BuildError) and everything else passes. -/
def envUserBuildFails : String → StageOutcomes :=
  fun n => if n = "user-service" then ⟨false, true, true, true⟩
    else ⟨true, true, true, true⟩

/-- All five demo unit names. -/
def demoSelAll : List String :=
  ["api-gateway", "user-service", "product-service", "order-service",
   "notification-service"]

/-- The demo invocation: whole registry selected, all stages passing,
concurrency bound 2. -/
def demoSched : Sched := ⟨demoRegistry, demoSelAll, envAllOk, 2⟩

/-- A two-unit registry (no dependency between the units), for the failure
isolation scenario. -/
def pairRegistry : List DeployUnit :=
  [⟨"user-service", "services/user-service/", 3001, []⟩,
   ⟨"product-service", "services/product-service/", 3002, []⟩]

/-- Both pair units selected. -/
def pairSel : List String := ["user-service", "product-service"]

/-- The pair invocation in which user-service's build fails. -/
def pairSchedFail : Sched := ⟨pairRegistry, pairSel, envUserBuildFails, 5⟩

/-- The pair invocation in which every stage passes. -/
def pairSchedOk : Sched := ⟨pairRegistry, pairSel, envAllOk, 5⟩

/-- A three-unit registry where the api-gateway depends on the two backend
services (the documentation's "Advanced: Deployment Dependencies"
shape). -/
def depRegistry : List DeployUnit :=
  [⟨"user-service", "services/user-service/", 3001, []⟩,
   ⟨"product-service", "services/product-service/", 3002, []⟩,
   ⟨"api-gateway", "services/api-gateway/", 3000,
     ["user-service", "product-service"]⟩]

/-- All three dependency-demo units selected. -/
def depSel : List String := ["user-service", "product-service", "api-gateway"]

/-- The dependency invocation in which user-service's build fails. -/
def depSchedFail : Sched := ⟨depRegistry, depSel, envUserBuildFails, 5⟩

/-- The state maps of the dependency-failure demo run: user-service starts
and fails its build; product-service runs through all four stages; the
api-gateway, whose dependency user-service failed, is skipped. -/
def depRun1 : StateMap := updateSt initState "user-service" .Building

/-- Second state of the dependency-failure demo run. -/
def depRun2 : StateMap := updateSt depRun1 "user-service" .Failed

/-- Third state of the dependency-failure demo run. -/
def depRun3 : StateMap := updateSt depRun2 "product-service" .Building

/-- Fourth state of the dependency-failure demo run. -/
def depRun4 : StateMap := updateSt depRun3 "product-service" .Publishing

/-- Fifth state of the dependency-failure demo run. -/
def depRun5 : StateMap := updateSt depRun4 "product-service" .Deploying

/-- Sixth state of the dependency-failure demo run. -/
def depRun6 : StateMap := updateSt depRun5 "product-service" .Verifying

/-- Seventh state of the dependency-failure demo run. -/
def depRun7 : StateMap := updateSt depRun6 "product-service" .Succeeded

/-- Final state of the dependency-failure demo run. -/
def depRun8 : StateMap := updateSt depRun7 "api-gateway" .Skipped

/-- States of the failing pair run: user-service starts and fails its
build, product-service runs through all four stages. -/
def pairFail1 : StateMap := updateSt initState "user-service" .Building

/-- Second state of the failing pair run. -/
def pairFail2 : StateMap := updateSt pairFail1 "user-service" .Failed

/-- Third state of the failing pair run. -/
def pairFail3 : StateMap := updateSt pairFail2 "product-service" .Building

/-- Fourth state of the failing pair run. -/
def pairFail4 : StateMap := updateSt pairFail3 "product-service" .Publishing

/-- Fifth state of the failing pair run. -/
def pairFail5 : StateMap := updateSt pairFail4 "product-service" .Deploying

/-- Sixth state of the failing pair run. -/
def pairFail6 : StateMap := updateSt pairFail5 "product-service" .Verifying

/-- Final state of the failing pair run. -/
def pairFail7 : StateMap := updateSt pairFail6 "product-service" .Succeeded

/-- States of the all-passing pair run: both units run through all four
stages. -/
def pairOk1 : StateMap := updateSt initState "user-service" .Building

/-- Second state of the all-passing pair run. -/
def pairOk2 : StateMap := updateSt pairOk1 "user-service" .Publishing

/-- Third state of the all-passing pair run. -/
def pairOk3 : StateMap := updateSt pairOk2 "user-service" .Deploying

/-- Fourth state of the all-passing pair run. -/
def pairOk4 : StateMap := updateSt pairOk3 "user-service" .Verifying

/-- Fifth state of the all-passing pair run. -/
def pairOk5 : StateMap := updateSt pairOk4 "user-service" .Succeeded

/-- Sixth state of the all-passing pair run. -/
def pairOk6 : StateMap := updateSt pairOk5 "product-service" .Building

/-- Seventh state of the all-passing pair run. -/
def pairOk7 : StateMap := updateSt pairOk6 "product-service" .Publishing

/-- Eighth state of the all-passing pair run. -/
def pairOk8 : StateMap := updateSt pairOk7 "product-service" .Deploying

/-- Ninth state of the all-passing pair run. -/
def pairOk9 : StateMap := updateSt pairOk8 "product-service" .Verifying

/-- Final state of the all-passing pair run. -/
def pairOk10 : StateMap := updateSt pairOk9 "product-service" .Succeeded

/-- Looking up a selected name in a constant-reason tag list yields that
reason. -/
theorem lookup_tag_of_mem (r : String) :
    ∀ (l : List DeployUnit) (n : String), n ∈ l.map (·.name) →
      (l.map (fun u => (u.name, r))).lookup n = some r := by
  intro l
  induction l with
  | nil => intro n hn; simp at hn
  | cons u t ih =>
    intro n hn
    simp only [List.map_cons, List.mem_cons] at hn
    rcases hn with h | h
    · simp [List.lookup, h]
    · by_cases hb : u.name = n
      · simp [List.lookup, hb]
      · have hbeq : (n == u.name) = false :=
          beq_eq_false_iff_ne.mpr (fun hh => hb hh.symm)
        simp only [List.map_cons, List.lookup, hbeq]
        exact ih n h

/-- C2: under `AutoDiff` the resolver selects exactly the units one of whose
path prefixes starts some changed path, tags each with reason
"path-changed", and selects nothing when every changed path lies outside
every unit's prefix. -/
theorem autoDiff_selects_exactly_changed (reg : List DeployUnit)
    (paths : List String) :
    (∀ n, n ∈ (resolve ⟨.AutoDiff, paths, []⟩ reg).selected
        ↔ ∃ u ∈ reg, u.name = n
            ∧ ∃ p ∈ paths, u.pathPrefix.toList.isPrefixOf p.toList = true)
    ∧ (∀ n ∈ (resolve ⟨.AutoDiff, paths, []⟩ reg).selected,
        ((resolve ⟨.AutoDiff, paths, []⟩ reg).reasons).lookup n
          = some "path-changed")
    ∧ ((∀ u ∈ reg, ∀ p ∈ paths, ¬ u.pathPrefix.toList.isPrefixOf p.toList = true) →
        (resolve ⟨.AutoDiff, paths, []⟩ reg).selected = []) := by
  refine ⟨?_, ?_, ?_⟩
  · intro n
    simp only [resolve, List.mem_map, List.mem_filter, List.any_eq_true]
    constructor
    · rintro ⟨u, ⟨hu, p, hp, hpre⟩, hn⟩
      exact ⟨u, hu, hn, p, hp, hpre⟩
    · rintro ⟨u, hu, hn, p, hp, hpre⟩
      exact ⟨u, ⟨hu, p, hp, hpre⟩, hn⟩
  · intro n hn
    exact lookup_tag_of_mem "path-changed" _ n hn
  · intro hout
    simp only [resolve, List.map_eq_nil_iff, List.filter_eq_nil_iff]
    intro u hu hany
    rw [List.any_eq_true] at hany
    obtain ⟨p, hp, hpre⟩ := hany
    exact hout u hu p hp hpre

/-- Witness for C2 at a concrete input: a documentation-only change selects
no unit of the demo registry. -/
theorem autoDiff_selects_exactly_changed_witness :
    (resolve ⟨.AutoDiff, ["README.md", "docs/QUICK_START.md"], []⟩
      demoRegistry).selected = [] :=
  (autoDiff_selects_exactly_changed demoRegistry
    ["README.md", "docs/QUICK_START.md"]).2.2 (by decide)

/-- C5: a push whose changed paths contain the workflow-definition path is
interpreted as `WorkflowChanged`, which selects every registry unit with
reason "workflow-changed". -/
theorem workflow_change_selects_all (reg : List DeployUnit)
    (paths : List String) (h : workflowDefinitionPath ∈ paths) :
    interpretTrigger reg (.push paths) = .ok ⟨.WorkflowChanged, paths, []⟩
    ∧ (resolve ⟨.WorkflowChanged, paths, []⟩ reg).selected = reg.map (·.name)
    ∧ ∀ n ∈ (resolve ⟨.WorkflowChanged, paths, []⟩ reg).selected,
        ((resolve ⟨.WorkflowChanged, paths, []⟩ reg).reasons).lookup n
          = some "workflow-changed" := by
  refine ⟨by simp [interpretTrigger, h], rfl, ?_⟩
  intro n hn
  exact lookup_tag_of_mem "workflow-changed" _ n hn

/-- Witness for C5: changing exactly `.github/workflows/deploy.yml` selects
all five demo units. -/
theorem workflow_change_selects_all_witness :
    (resolve ⟨.WorkflowChanged, [workflowDefinitionPath], []⟩
        demoRegistry).selected
      = ["api-gateway", "user-service", "product-service", "order-service",
         "notification-service"] :=
  (workflow_change_selects_all demoRegistry [workflowDefinitionPath]
      (by decide)).2.1.trans (by decide)

/-- C4: the manual trigger parses the comma-separated services list; a
case-insensitive "all" gives `AllUnits`; otherwise the mode is `ManualList`
with the parsed names, and the invocation fails with `UnknownUnit` —
yielding no summary and no unit records at all — iff some parsed name is
not a registry unit name. -/
theorem manual_trigger_parse (reg : List DeployUnit) (services : String) :
    (lowerString services = "all" →
      interpretTrigger reg (.manual services) = .ok ⟨.AllUnits, [], []⟩)
    ∧ (lowerString services ≠ "all" →
        (interpretTrigger reg (.manual services) = .error .UnknownUnit
          ↔ ∃ n ∈ splitComma services, ∀ u ∈ reg, u.name ≠ n)
        ∧ ((∀ n ∈ splitComma services, ∃ u ∈ reg, u.name = n) →
            interpretTrigger reg (.manual services)
              = .ok ⟨.ManualList, [], splitComma services⟩))
    ∧ (interpretTrigger reg (.manual services) = .error .UnknownUnit →
        ∀ (env : String → StageOutcomes) (revision : String),
          runPipeline reg (.manual services) env revision
            = .error .UnknownUnit) := by
  refine ⟨fun hall => by simp [interpretTrigger, hall], fun hne => ⟨?_, ?_⟩, ?_⟩
  · by_cases hok :
        (splitComma services).all
          (fun n => reg.any (fun u => decide (u.name = n))) = true
    · simp only [interpretTrigger, if_neg hne, if_pos hok]
      constructor
      · intro h; exact absurd h (by simp)
      · rintro ⟨n, hn, hbad⟩
        rw [List.all_eq_true] at hok
        have := hok n hn
        rw [List.any_eq_true] at this
        obtain ⟨u, hu, hname⟩ := this
        exact absurd (of_decide_eq_true hname) (hbad u hu)
    · simp only [interpretTrigger, if_neg hne, if_neg hok]
      constructor
      · intro _
        rw [List.all_eq_true] at hok
        push_neg at hok
        obtain ⟨n, hn, hnotany⟩ := hok
        refine ⟨n, hn, fun u hu heq => hnotany ?_⟩
        rw [List.any_eq_true]
        exact ⟨u, hu, decide_eq_true heq⟩
      · intro _; trivial
  · intro hall
    have hok : (splitComma services).all
        (fun n => reg.any (fun u => decide (u.name = n))) = true := by
      rw [List.all_eq_true]
      intro n hn
      obtain ⟨u, hu, heq⟩ := hall n hn
      rw [List.any_eq_true]
      exact ⟨u, hu, decide_eq_true heq⟩
    simp [interpretTrigger, if_neg hne, hok]
  · intro herr env revision
    simp [runPipeline, herr]

/-- Witness for C4: the typo "usr-service" in a manual list fails the whole
invocation with `UnknownUnit` — the pipeline yields no summary. -/
theorem manual_trigger_parse_witness :
    runPipeline demoRegistry
        (.manual "user-service,order-service,usr-service")
        (fun _ => ⟨true, true, true, true⟩) "rev1"
      = .error .UnknownUnit :=
  (manual_trigger_parse demoRegistry
      "user-service,order-service,usr-service").2.2
    (((manual_trigger_parse demoRegistry
        "user-service,order-service,usr-service").2.1 (by decide)).1.mpr
      (by decide))
    (fun _ => ⟨true, true, true, true⟩) "rev1"

/-- Every record of the map being Skipped, decidably. -/
theorem overallOf_eq_allSkipped (records : List (String × DeploymentState)) :
    overallOf records = .AllSkipped
      ↔ ∀ r ∈ records, r.2 = DeploymentState.Skipped := by
  unfold overallOf
  have hiff : records.all (fun r => decide (r.2 = DeploymentState.Skipped)) = true
      ↔ ∀ r ∈ records, r.2 = DeploymentState.Skipped := by
    rw [List.all_eq_true]
    constructor
    · intro h r hr; exact of_decide_eq_true (h r hr)
    · intro h r hr; exact decide_eq_true (h r hr)
  by_cases h1 : records.all (fun r => decide (r.2 = DeploymentState.Skipped)) = true
  · rw [if_pos h1]
    exact iff_of_true rfl (hiff.mp h1)
  · rw [if_neg h1]
    have hneg : ¬ ∀ r ∈ records, r.2 = DeploymentState.Skipped :=
      fun h => h1 (hiff.mpr h)
    split <;> exact iff_of_false (by decide) hneg

/-- The aggregator reports AllSucceeded exactly for a non-empty map whose
every record succeeded. -/
theorem overallOf_eq_allSucceeded (records : List (String × DeploymentState)) :
    overallOf records = .AllSucceeded
      ↔ records ≠ [] ∧ ∀ r ∈ records, r.2 = DeploymentState.Succeeded := by
  have hskip := overallOf_eq_allSkipped records
  unfold overallOf
  by_cases h1 : records.all (fun r => decide (r.2 = DeploymentState.Skipped)) = true
  · rw [if_pos h1]
    refine iff_of_false (by decide) ?_
    rintro ⟨hne, hsuc⟩
    match records, hne with
    | (n, st) :: rest, _ =>
      have hs : st = DeploymentState.Skipped := by
        have := (hskip.mp (by rw [overallOf, if_pos h1])) (n, st) (by simp)
        exact this
      have hc : st = DeploymentState.Succeeded := hsuc (n, st) (by simp)
      rw [hs] at hc
      exact DeploymentState.noConfusion hc
  · rw [if_neg h1]
    have hsuciff :
        records.all (fun r => decide (r.2 = DeploymentState.Succeeded)) = true
          ↔ ∀ r ∈ records, r.2 = DeploymentState.Succeeded := by
      rw [List.all_eq_true]
      constructor
      · intro h r hr; exact of_decide_eq_true (h r hr)
      · intro h r hr; exact decide_eq_true (h r hr)
    by_cases h2 :
        records.all (fun r => decide (r.2 = DeploymentState.Succeeded)) = true
    · rw [if_pos h2]
      refine iff_of_true rfl ⟨?_, hsuciff.mp h2⟩
      rintro rfl
      exact h1 rfl
    · rw [if_neg h2]
      refine iff_of_false (by decide) ?_
      rintro ⟨_, hsuc⟩
      exact h2 (hsuciff.mpr hsuc)

/-- The scheduler produces no record when nothing is selected. -/
theorem finalRecords_sel_nil (env : String → StageOutcomes) :
    ∀ (reg : List DeployUnit) (acc : List (String × DeploymentState)),
      finalRecords env [] reg acc = acc := by
  intro reg
  induction reg with
  | nil => intro acc; rfl
  | cons u rest ih =>
    intro acc
    simp [finalRecords, ih]

/-- C6: the summary's overall status is AllSkipped exactly when the record
map is empty or all-Skipped, AllSucceeded exactly when it is non-empty and
all-Succeeded, PartialFailure otherwise; the exit signal is success iff the
status is AllSucceeded or AllSkipped; and an empty changed-path push yields
the empty selection, an AllSkipped summary and a success exit. -/
theorem summary_status_and_exit (records : List (String × DeploymentState))
    (revision : String) :
    ((summarize records revision).overallStatus = .AllSkipped
      ↔ records = [] ∨ ∀ r ∈ records, r.2 = DeploymentState.Skipped)
    ∧ ((summarize records revision).overallStatus = .AllSucceeded
      ↔ records ≠ [] ∧ ∀ r ∈ records, r.2 = DeploymentState.Succeeded)
    ∧ ((summarize records revision).overallStatus = .PartialFailure
      ↔ ¬ (summarize records revision).overallStatus = .AllSkipped
        ∧ ¬ (summarize records revision).overallStatus = .AllSucceeded)
    ∧ (exitSuccess (summarize records revision) = true
      ↔ ((summarize records revision).overallStatus = .AllSucceeded
          ∨ (summarize records revision).overallStatus = .AllSkipped))
    ∧ (∀ (reg : List DeployUnit) (env : String → StageOutcomes),
        runPipeline reg (.push []) env revision = .ok (summarize [] revision)
        ∧ (summarize ([] : List (String × DeploymentState))
            revision).overallStatus = .AllSkipped
        ∧ exitSuccess
            (summarize ([] : List (String × DeploymentState)) revision)
          = true) := by
  refine ⟨?_, ?_, ?_, ?_, ?_⟩
  · show overallOf records = _ ↔ _
    rw [overallOf_eq_allSkipped records]
    constructor
    · exact Or.inr
    · rintro (rfl | h)
      · intro r hr; exact absurd hr (List.not_mem_nil r)
      · exact h
  · exact overallOf_eq_allSucceeded records
  · show overallOf records = _ ↔ _
    cases hov : overallOf records <;> simp [summarize, hov]
  · show exitSuccess ⟨records, overallOf records, revision⟩ = true ↔ _
    cases hov : overallOf records <;> simp [summarize, exitSuccess, hov]
  · intro reg env
    have hsel : (resolve ⟨.AutoDiff, [], []⟩ reg).selected = [] := by
      simp [resolve]
    refine ⟨?_, rfl, rfl⟩
    have htrig : interpretTrigger reg (.push [])
        = .ok ⟨.AutoDiff, [], []⟩ := by
      simp [interpretTrigger, workflowDefinitionPath]
    unfold runPipeline
    rw [htrig]
    show Except.ok (summarize (runScheduler env
        (resolve ⟨SelectionMode.AutoDiff, [], []⟩ reg).selected reg) revision)
      = Except.ok (summarize [] revision)
    rw [hsel]
    rw [show runScheduler env ([] : List String) reg
        = ([] : List (String × DeploymentState)) from
      finalRecords_sel_nil env reg []]

/-- Witness for C6 at a concrete input: a single Skipped record summarizes
to AllSkipped. -/
theorem summary_status_and_exit_witness :
    (summarize [("user-service", DeploymentState.Skipped)]
        "rev1").overallStatus = OverallStatus.AllSkipped :=
  (summary_status_and_exit [("user-service", DeploymentState.Skipped)]
      "rev1").1.mpr (Or.inr (by decide))

/-- C9: every one of the four services answers `GET /health` with HTTP 200
and body status "healthy", for every state of its in-memory store and every
timestamp — the health endpoint never returns an unhealthy signal. -/
theorem health_always_healthy :
    ∀ (users : List UserRec) (products : List ProductRec)
      (notifications : List NotifRec) (orders : List OrderRec) (now : String),
      (userServiceHealth users now).statusCode = 200
      ∧ (userServiceHealth users now).body.status = "healthy"
      ∧ (productServiceHealth products now).statusCode = 200
      ∧ (productServiceHealth products now).body.status = "healthy"
      ∧ (notificationServiceHealth notifications now).statusCode = 200
      ∧ (notificationServiceHealth notifications now).body.status = "healthy"
      ∧ (orderServiceHealth orders now).statusCode = 200
      ∧ (orderServiceHealth orders now).body.status = "healthy" := by
  intro users products notifications orders now
  refine ⟨rfl, rfl, rfl, rfl, rfl, rfl, rfl, rfl⟩

/-- C10 counterexample: the body `{userId: "1", productId: "1", quantity: 0}`
contains `userId`, `productId` and `quantity`, yet `POST /orders` answers
400 and appends nothing — the claim's "HTTP 201 with that order" fails for
a body that merely contains the three fields. -/
theorem postOrders_quantity_zero_rejected :
    (postOrders (initialOrders "t0")
        ⟨.vStr "1", .vStr "1", .vNum 0, .vUndef⟩ .ok "t1").2.statusCode = 400
    ∧ (postOrders (initialOrders "t0")
        ⟨.vStr "1", .vStr "1", .vNum 0, .vUndef⟩ .ok "t1").1
      = initialOrders "t0" := by
  exact ⟨rfl, rfl⟩

/-- C10 (amended): when the three required body fields are truthy, the new
order is appended to the store and the response is HTTP 201 carrying that
order, and the result – store and response alike – is the same whatever the
outcome of the notification call. -/
theorem postOrders_creates_regardless_of_notification :
    ∀ (orders : List OrderRec) (body : OrdersPostBody)
      (notify : NotifyOutcome) (now : String),
      body.userId.truthy = true → body.productId.truthy = true →
      body.quantity.truthy = true →
      (∃ newOrder : OrderRec,
          postOrders orders body notify now
            = (orders ++ [newOrder], ⟨201, .success newOrder⟩))
      ∧ ∀ notify' : NotifyOutcome,
          postOrders orders body notify now = postOrders orders body notify' now := by
  intro orders body notify now hu hp hq
  have hmain : ∀ n : NotifyOutcome,
      postOrders orders body n now
        = (orders ++ [newOrderOf orders body now],
           ⟨201, .success (newOrderOf orders body now)⟩) := by
    intro n
    unfold postOrders
    rw [if_neg (by simp [hu, hp, hq])]
    cases n <;> rfl
  exact ⟨⟨_, hmain notify⟩, fun notify' => (hmain notify).trans (hmain notify').symm⟩

/-- Witness for the amended C10 theorem at a concrete truthy body: the order
is created and the failed-notification run agrees with the successful one. -/
theorem postOrders_creates_witness :
    (∃ newOrder : OrderRec,
        postOrders (initialOrders "t0") ⟨.vStr "1", .vStr "2", .vStr "3", .vUndef⟩
            (.failed "connection refused") "t1"
          = (initialOrders "t0" ++ [newOrder], ⟨201, .success newOrder⟩))
    ∧ ∀ notify' : NotifyOutcome,
        postOrders (initialOrders "t0") ⟨.vStr "1", .vStr "2", .vStr "3", .vUndef⟩
            (.failed "connection refused") "t1"
          = postOrders (initialOrders "t0") ⟨.vStr "1", .vStr "2", .vStr "3", .vUndef⟩
              notify' "t1" :=
  postOrders_creates_regardless_of_notification
    (initialOrders "t0") ⟨.vStr "1", .vStr "2", .vStr "3", .vUndef⟩
    (.failed "connection refused") "t1" (by decide) (by decide) (by decide)

theorem updateSt_self (s : StateMap) (n : String) (st : DeploymentState) :
    updateSt s n st n = st := if_pos rfl

theorem updateSt_ne (s : StateMap) {n m : String} (st : DeploymentState)
    (h : m ≠ n) : updateSt s n st m = s m := if_neg h

/-- In a registry with distinct names, units are determined by name. -/
theorem unit_eq_of_name_eq {reg : List DeployUnit} (hnd : NamesNodup reg)
    {u w : DeployUnit} (hu : u ∈ reg) (hw : w ∈ reg) (h : u.name = w.name) :
    u = w :=
  List.inj_on_of_nodup_map hnd hu hw h

/-- Updating a name that was not Succeeded preserves `depsSucceeded`. -/
theorem depsSucceeded_update {S : Sched} {s : StateMap} {u : DeployUnit}
    (hds : depsSucceeded S s u) {n : String} {st : DeploymentState}
    (hn : s n ≠ .Succeeded) :
    depsSucceeded S (updateSt s n st) u := by
  intro d hd hdsel
  have hdn : d ≠ n := fun h => hn (h ▸ hds d hd hdsel)
  rw [updateSt_ne s st hdn]
  exact hds d hd hdsel

/-- Updating a name that was neither Failed nor Skipped preserves
`depFailed`. -/
theorem depFailed_update {S : Sched} {s : StateMap} {u : DeployUnit}
    (hdf : depFailed S s u) {n : String} {st : DeploymentState}
    (hn1 : s n ≠ .Failed) (hn2 : s n ≠ .Skipped) :
    depFailed S (updateSt s n st) u := by
  obtain ⟨d, hd, hdsel, hcase⟩ := hdf
  have hdn : d ≠ n := by
    rintro rfl
    rcases hcase with h | h
    · exact hn1 h
    · exact hn2 h
  exact ⟨d, hd, hdsel, by rw [updateSt_ne s st hdn]; exact hcase⟩

/-- The three invariant clauses of a unit other than the stepping one
transfer across a point update of a non-terminal, non-Succeeded name. -/
theorem inv_clauses_transfer {S : Sched} {s : StateMap} {w : DeployUnit}
    (hcl : ((s w.name ≠ .Pending ∧ s w.name ≠ .Skipped) → depsSucceeded S s w)
      ∧ (s w.name = .Skipped → depFailed S s w)
      ∧ stageConsistent (S.env w.name) (s w.name))
    {n : String} {st : DeploymentState}
    (hwn : w.name ≠ n)
    (hn1 : s n ≠ .Succeeded) (hn2 : s n ≠ .Failed) (hn3 : s n ≠ .Skipped) :
    ((updateSt s n st w.name ≠ .Pending ∧ updateSt s n st w.name ≠ .Skipped) →
        depsSucceeded S (updateSt s n st) w)
    ∧ (updateSt s n st w.name = .Skipped → depFailed S (updateSt s n st) w)
    ∧ stageConsistent (S.env w.name) (updateSt s n st w.name) := by
  have heq : updateSt s n st w.name = s w.name := updateSt_ne s st hwn
  refine ⟨?_, ?_, ?_⟩
  · intro h
    rw [heq] at h
    exact depsSucceeded_update (hcl.1 h) hn1
  · intro h
    rw [heq] at h
    exact depFailed_update (hcl.2.1 h) hn2 hn3
  · rw [heq]
    exact hcl.2.2

/-- Every step moves exactly one selected, non-terminal unit. -/
theorem step_shape {S : Sched} {s s' : StateMap} (hst : Step S s s') :
    ∃ u st, u ∈ S.reg ∧ u.name ∈ S.sel ∧ isTerminal (s u.name) = false
      ∧ s' = updateSt s u.name st := by
  cases hst with
  | start u hreg hsel hp hdeps hslot =>
    exact ⟨u, _, hreg, hsel, by simp [hp, isTerminal], rfl⟩
  | skipDep u hreg hsel hp hdep =>
    exact ⟨u, _, hreg, hsel, by simp [hp, isTerminal], rfl⟩
  | build u hreg hsel h =>
    exact ⟨u, _, hreg, hsel, by simp [h, isTerminal], rfl⟩
  | publish u hreg hsel h =>
    exact ⟨u, _, hreg, hsel, by simp [h, isTerminal], rfl⟩
  | deploy u hreg hsel h =>
    exact ⟨u, _, hreg, hsel, by simp [h, isTerminal], rfl⟩
  | verify u hreg hsel h =>
    exact ⟨u, _, hreg, hsel, by simp [h, isTerminal], rfl⟩

/-- Terminal states are absorbing: no step changes a terminal unit. -/
theorem step_terminal_fixed {S : Sched} {s s' : StateMap} (hst : Step S s s')
    {n : String} (ht : isTerminal (s n) = true) : s' n = s n := by
  obtain ⟨u, st, _, _, hnt, rfl⟩ := step_shape hst
  have hne : n ≠ u.name := by
    rintro rfl
    rw [ht] at hnt
    exact Bool.noConfusion hnt
  exact updateSt_ne s st hne

/-- One step preserves the scheduler invariant. -/
theorem schedInv_step {S : Sched} (hnd : NamesNodup S.reg) {s s' : StateMap}
    (hinv : SchedInv S s) (hst : Step S s s') : SchedInv S s' := by
  cases hst with
  | start u hreg hsel hp hdeps hslot =>
    intro w hwreg hwsel
    by_cases hwn : w.name = u.name
    · have hwu : w = u := unit_eq_of_name_eq hnd hwreg hreg hwn
      rw [hwu]
      refine ⟨?_, ?_, ?_⟩
      · intro _
        exact depsSucceeded_update hdeps (by simp [hp])
      · intro hskip
        rw [updateSt_self] at hskip
        exact absurd hskip (by simp)
      · rw [updateSt_self]
        trivial
    · exact inv_clauses_transfer (hinv w hwreg hwsel) hwn
        (by simp [hp]) (by simp [hp]) (by simp [hp])
  | skipDep u hreg hsel hp hdep =>
    intro w hwreg hwsel
    by_cases hwn : w.name = u.name
    · have hwu : w = u := unit_eq_of_name_eq hnd hwreg hreg hwn
      rw [hwu]
      refine ⟨?_, ?_, ?_⟩
      · intro h
        rw [updateSt_self] at h
        exact absurd rfl h.2
      · intro _
        exact depFailed_update hdep (by simp [hp]) (by simp [hp])
      · rw [updateSt_self]
        trivial
    · exact inv_clauses_transfer (hinv w hwreg hwsel) hwn
        (by simp [hp]) (by simp [hp]) (by simp [hp])
  | build u hreg hsel h =>
    intro w hwreg hwsel
    by_cases hwn : w.name = u.name
    · have hwu : w = u := unit_eq_of_name_eq hnd hwreg hreg hwn
      rw [hwu]
      have holdds : depsSucceeded S s u :=
        (hinv u hreg hsel).1 ⟨by simp [h], by simp [h]⟩
      refine ⟨?_, ?_, ?_⟩
      · intro _
        exact depsSucceeded_update holdds (by simp [h])
      · intro hskip
        rw [updateSt_self] at hskip
        by_cases hb : (S.env u.name).buildOk = true <;> simp [hb] at hskip
      · rw [updateSt_self]
        by_cases hb : (S.env u.name).buildOk = true
        · rw [if_pos hb]
          exact hb
        · rw [if_neg hb]
          show stageResult (S.env u.name) = .Failed
          simp [stageResult, hb]
    · exact inv_clauses_transfer (hinv w hwreg hwsel) hwn
        (by simp [h]) (by simp [h]) (by simp [h])
  | publish u hreg hsel h =>
    intro w hwreg hwsel
    by_cases hwn : w.name = u.name
    · have hwu : w = u := unit_eq_of_name_eq hnd hwreg hreg hwn
      rw [hwu]
      have holdds : depsSucceeded S s u :=
        (hinv u hreg hsel).1 ⟨by simp [h], by simp [h]⟩
      have hcons : stageConsistent (S.env u.name) (s u.name) :=
        (hinv u hreg hsel).2.2
      rw [h] at hcons
      have hb : (S.env u.name).buildOk = true := hcons
      refine ⟨?_, ?_, ?_⟩
      · intro _
        exact depsSucceeded_update holdds (by simp [h])
      · intro hskip
        rw [updateSt_self] at hskip
        by_cases hq : (S.env u.name).pushOk = true <;> simp [hq] at hskip
      · rw [updateSt_self]
        by_cases hq : (S.env u.name).pushOk = true
        · rw [if_pos hq]
          exact ⟨hb, hq⟩
        · rw [if_neg hq]
          show stageResult (S.env u.name) = .Failed
          simp [stageResult, hb, hq]
    · exact inv_clauses_transfer (hinv w hwreg hwsel) hwn
        (by simp [h]) (by simp [h]) (by simp [h])
  | deploy u hreg hsel h =>
    intro w hwreg hwsel
    by_cases hwn : w.name = u.name
    · have hwu : w = u := unit_eq_of_name_eq hnd hwreg hreg hwn
      rw [hwu]
      have holdds : depsSucceeded S s u :=
        (hinv u hreg hsel).1 ⟨by simp [h], by simp [h]⟩
      have hcons : stageConsistent (S.env u.name) (s u.name) :=
        (hinv u hreg hsel).2.2
      rw [h] at hcons
      obtain ⟨hb, hq⟩ :
          (S.env u.name).buildOk = true ∧ (S.env u.name).pushOk = true :=
        hcons
      refine ⟨?_, ?_, ?_⟩
      · intro _
        exact depsSucceeded_update holdds (by simp [h])
      · intro hskip
        rw [updateSt_self] at hskip
        by_cases hd : (S.env u.name).deployOk = true <;> simp [hd] at hskip
      · rw [updateSt_self]
        by_cases hd : (S.env u.name).deployOk = true
        · rw [if_pos hd]
          exact ⟨hb, hq, hd⟩
        · rw [if_neg hd]
          show stageResult (S.env u.name) = .Failed
          simp [stageResult, hb, hq, hd]
    · exact inv_clauses_transfer (hinv w hwreg hwsel) hwn
        (by simp [h]) (by simp [h]) (by simp [h])
  | verify u hreg hsel h =>
    intro w hwreg hwsel
    by_cases hwn : w.name = u.name
    · have hwu : w = u := unit_eq_of_name_eq hnd hwreg hreg hwn
      rw [hwu]
      have holdds : depsSucceeded S s u :=
        (hinv u hreg hsel).1 ⟨by simp [h], by simp [h]⟩
      have hcons : stageConsistent (S.env u.name) (s u.name) :=
        (hinv u hreg hsel).2.2
      rw [h] at hcons
      obtain ⟨hb, hq, hd⟩ : (S.env u.name).buildOk = true
          ∧ (S.env u.name).pushOk = true ∧ (S.env u.name).deployOk = true :=
        hcons
      refine ⟨?_, ?_, ?_⟩
      · intro _
        exact depsSucceeded_update holdds (by simp [h])
      · intro hskip
        rw [updateSt_self] at hskip
        by_cases hh : (S.env u.name).healthy = true <;> simp [hh] at hskip
      · rw [updateSt_self]
        by_cases hh : (S.env u.name).healthy = true
        · rw [if_pos hh]
          show stageResult (S.env u.name) = .Succeeded
          simp [stageResult, hb, hq, hd, hh]
        · rw [if_neg hh]
          show stageResult (S.env u.name) = .Failed
          simp [stageResult, hb, hq, hd, hh]
    · exact inv_clauses_transfer (hinv w hwreg hwsel) hwn
        (by simp [h]) (by simp [h]) (by simp [h])

/-- The invariant holds initially. -/
theorem schedInv_init (S : Sched) : SchedInv S initState := by
  intro u _ _
  refine ⟨?_, ?_, ?_⟩
  · intro h
    exact absurd rfl h.1
  · intro h
    exact DeploymentState.noConfusion h
  · trivial

/-- The invariant holds in every reachable state. -/
theorem schedInv_reachable {S : Sched} (hnd : NamesNodup S.reg)
    {s : StateMap} (h : Reachable S s) : SchedInv S s := by
  induction h with
  | refl => exact schedInv_init S
  | tail _ hstep ih => exact schedInv_step hnd ih hstep

/-- Effect of a point update on the number of active selected units. -/
theorem activeCount_update :
    ∀ (sel : List String), sel.Nodup → ∀ {n : String}, n ∈ sel →
      ∀ (s : StateMap) (st : DeploymentState),
      activeCount sel (updateSt s n st) + (if isActive (s n) then 1 else 0)
        = activeCount sel s + (if isActive st then 1 else 0) := by
  intro sel
  induction sel with
  | nil => intro _ n hn; cases hn
  | cons a rest ih =>
    intro hnd n hn s st
    rcases List.mem_cons.mp hn with rfl | hmem
    · have hrest : ∀ m ∈ rest, m ≠ n :=
        fun m hm heq => (List.nodup_cons.mp hnd).1 (heq ▸ hm)
      rw [activeCount, activeCount, List.countP_cons, List.countP_cons]
      have hsame : rest.countP (fun m => isActive (updateSt s n st m))
          = rest.countP (fun m => isActive (s m)) := by
        apply List.countP_congr
        intro m hm
        rw [updateSt_ne s st (hrest m hm)]
      rw [hsame, updateSt_self]
      omega
    · have han : a ≠ n :=
        fun heq => (List.nodup_cons.mp hnd).1 (heq ▸ hmem)
      have hstep := ih (List.nodup_cons.mp hnd).2 hmem s st
      rw [activeCount, activeCount, List.countP_cons, List.countP_cons,
        updateSt_ne s st han]
      rw [activeCount, activeCount] at hstep
      omega

/-- No unit is active initially. -/
theorem activeCount_init (sel : List String) :
    activeCount sel initState = 0 := by
  rw [activeCount, List.countP_eq_zero]
  intro n _
  simp [initState, isActive]

/-- The concurrency bound holds in every reachable state. -/
theorem activeCount_le_bound {S : Sched} (hnd : S.sel.Nodup) :
    ∀ {s : StateMap}, Reachable S s →
      activeCount S.sel s ≤ S.maxConcurrency := by
  intro s h
  induction h with
  | refl => rw [activeCount_init]; exact Nat.zero_le _
  | @tail b c _ hstep ih =>
    cases hstep with
    | start u hreg hsel hp hdeps hslot =>
      have hupd := activeCount_update S.sel hnd hsel b .Building
      rw [hp] at hupd
      simp [isActive] at hupd
      omega
    | skipDep u hreg hsel hp hdep =>
      have hupd := activeCount_update S.sel hnd hsel b .Skipped
      rw [hp] at hupd
      simp [isActive] at hupd
      omega
    | build u hreg hsel h =>
      by_cases hb : (S.env u.name).buildOk = true
      · rw [if_pos hb]
        have hupd := activeCount_update S.sel hnd hsel b .Publishing
        rw [h] at hupd
        simp [isActive] at hupd
        omega
      · rw [if_neg hb]
        have hupd := activeCount_update S.sel hnd hsel b .Failed
        rw [h] at hupd
        simp [isActive] at hupd
        omega
    | publish u hreg hsel h =>
      by_cases hq : (S.env u.name).pushOk = true
      · rw [if_pos hq]
        have hupd := activeCount_update S.sel hnd hsel b .Deploying
        rw [h] at hupd
        simp [isActive] at hupd
        omega
      · rw [if_neg hq]
        have hupd := activeCount_update S.sel hnd hsel b .Failed
        rw [h] at hupd
        simp [isActive] at hupd
        omega
    | deploy u hreg hsel h =>
      by_cases hd : (S.env u.name).deployOk = true
      · rw [if_pos hd]
        have hupd := activeCount_update S.sel hnd hsel b .Verifying
        rw [h] at hupd
        simp [isActive] at hupd
        omega
      · rw [if_neg hd]
        have hupd := activeCount_update S.sel hnd hsel b .Failed
        rw [h] at hupd
        simp [isActive] at hupd
        omega
    | verify u hreg hsel h =>
      by_cases hh : (S.env u.name).healthy = true
      · rw [if_pos hh]
        have hupd := activeCount_update S.sel hnd hsel b .Succeeded
        rw [h] at hupd
        simp [isActive] at hupd
        omega
      · rw [if_neg hh]
        have hupd := activeCount_update S.sel hnd hsel b .Failed
        rw [h] at hupd
        simp [isActive] at hupd
        omega

/-- C8: in every reachable state at most `maxConcurrency` selected units
occupy Building/Publishing/Deploying/Verifying; and a ready Pending unit
stays Pending across any step taken while the slots are all occupied. -/
theorem concurrency_bound_holds (S : Sched) (hndsel : S.sel.Nodup)
    (hndreg : NamesNodup S.reg) :
    (∀ s, Reachable S s → activeCount S.sel s ≤ S.maxConcurrency)
    ∧ (∀ s (u : DeployUnit), u ∈ S.reg → u.name ∈ S.sel →
        s u.name = .Pending → depsSucceeded S s u →
        activeCount S.sel s = S.maxConcurrency →
        ∀ s', Step S s s' → s' u.name = .Pending) := by
  constructor
  · intro s h
    exact activeCount_le_bound hndsel h
  · intro s u hreg hsel hp hready hfull s' hstep
    cases hstep with
    | start v hvreg hvsel hvp hvdeps hvslot =>
      exact absurd hvslot (by omega)
    | skipDep v hvreg hvsel hvp hvdep =>
      by_cases hne : u.name = v.name
      · have hvu : v = u := unit_eq_of_name_eq hndreg hvreg hreg hne.symm
        obtain ⟨d, hd, hdsel, hcase⟩ := hvdep
        rw [hvu] at hd
        have := hready d hd hdsel
        rcases hcase with hc | hc <;> rw [this] at hc <;>
          exact DeploymentState.noConfusion hc
      · rw [updateSt_ne s _ hne]
        exact hp
    | build v hvreg hvsel h =>
      by_cases hne : u.name = v.name
      · rw [hne, h] at hp
        exact DeploymentState.noConfusion hp
      · rw [updateSt_ne s _ hne]
        exact hp
    | publish v hvreg hvsel h =>
      by_cases hne : u.name = v.name
      · rw [hne, h] at hp
        exact DeploymentState.noConfusion hp
      · rw [updateSt_ne s _ hne]
        exact hp
    | deploy v hvreg hvsel h =>
      by_cases hne : u.name = v.name
      · rw [hne, h] at hp
        exact DeploymentState.noConfusion hp
      · rw [updateSt_ne s _ hne]
        exact hp
    | verify v hvreg hvsel h =>
      by_cases hne : u.name = v.name
      · rw [hne, h] at hp
        exact DeploymentState.noConfusion hp
      · rw [updateSt_ne s _ hne]
        exact hp

/-- When nothing is active, every selected name is inactive. -/
theorem no_active_of_count_zero {sel : List String} {s : StateMap}
    (h : activeCount sel s = 0) :
    ∀ n ∈ sel, isActive (s n) = false := by
  intro n hn
  have := List.countP_eq_zero.mp h n hn
  simpa using this

/-- A selected unit that is neither terminal nor active is Pending. -/
theorem pending_of_not_terminal_not_active {s : StateMap} {n : String}
    (ht : isTerminal (s n) = false) (ha : isActive (s n) = false) :
    s n = .Pending := by
  cases hsn : s n <;> simp [hsn, isTerminal, isActive] at ht ha ⊢

/-- A terminal state other than Succeeded is Failed or Skipped. -/
theorem failed_or_skipped_of_terminal {s : StateMap} {n : String}
    (ht : isTerminal (s n) = true) (hne : s n ≠ .Succeeded) :
    s n = .Failed ∨ s n = .Skipped := by
  cases hsn : s n
  case Succeeded => exact absurd hsn hne
  case Failed => exact Or.inl rfl
  case Skipped => exact Or.inr rfl
  all_goals simp [hsn, isTerminal] at ht

/-- Walking a dependency-ordered registry suffix whose seen prefix is all
terminal: the earliest selected non-terminal unit yields a step when no
unit is active. -/
theorem progress_aux {S : Sched} (hN : 1 ≤ S.maxConcurrency) {s : StateMap}
    (hnoact : activeCount S.sel s = 0) :
    ∀ (l : List DeployUnit) (seen : List String),
      (∀ x ∈ l, x ∈ S.reg) →
      depsBeforeSel S.sel seen l →
      (∀ w ∈ seen, w ∈ S.sel → isTerminal (s w) = true) →
      (∃ u ∈ l, u.name ∈ S.sel ∧ isTerminal (s u.name) = false) →
      ∃ s', Step S s s' := by
  intro l
  induction l with
  | nil =>
    intro seen _ _ _ hex
    obtain ⟨u, hu, _⟩ := hex
    cases hu
  | cons a rest ih =>
    intro seen hsub hdb hseen hex
    by_cases hcase : a.name ∈ S.sel ∧ isTerminal (s a.name) = false
    · obtain ⟨hasel, hant⟩ := hcase
      have hana : isActive (s a.name) = false :=
        no_active_of_count_zero hnoact a.name hasel
      have hap : s a.name = .Pending :=
        pending_of_not_terminal_not_active hant hana
      have hareg : a ∈ S.reg := hsub a (by simp)
      by_cases hready : ∀ d ∈ a.dependsOn, d ∈ S.sel → s d = .Succeeded
      · exact ⟨_, Step.start a hareg hasel hap hready (by omega)⟩
      · push_neg at hready
        obtain ⟨d, hd, hdsel, hdne⟩ := hready
        have hdterm : isTerminal (s d) = true :=
          hseen d (hdb.1 d hd hdsel) hdsel
        have hdfs := failed_or_skipped_of_terminal hdterm hdne
        exact ⟨_, Step.skipDep a hareg hasel hap ⟨d, hd, hdsel, hdfs⟩⟩
    · apply ih (a.name :: seen) (fun x hx => hsub x (by simp [hx])) hdb.2
      · intro w hw hwsel
        rcases List.mem_cons.mp hw with rfl | hwseen
        · by_cases hterm : isTerminal (s a.name) = true
          · exact hterm
          · exact absurd ⟨hwsel, by simpa using hterm⟩ hcase
        · exact hseen w hwseen hwsel
      · obtain ⟨u, hu, husel, hunt⟩ := hex
        rcases List.mem_cons.mp hu with rfl | hurest
        · exact absurd ⟨husel, hunt⟩ hcase
        · exact ⟨u, hurest, husel, hunt⟩

/-- Progress: a reachable, not yet completed invocation with at least one
concurrency slot, a dependency-ordered registry and selected names drawn
from the registry can always take a step. -/
theorem progress {S : Sched} (hN : 1 ≤ S.maxConcurrency)
    (hord : depsBeforeSel S.sel [] S.reg)
    (hselreg : ∀ n ∈ S.sel, ∃ u ∈ S.reg, u.name = n)
    {s : StateMap} (hnc : ¬ Completed S s) :
    ∃ s', Step S s s' := by
  unfold Completed at hnc
  push_neg at hnc
  obtain ⟨n, hn, hnt⟩ := hnc
  by_cases hact : ∃ m ∈ S.sel, isActive (s m) = true
  · obtain ⟨m, hm, hma⟩ := hact
    obtain ⟨u, hu, rfl⟩ := hselreg m hm
    cases hsm : s u.name <;>
      first
      | exact ⟨_, Step.build u hu hm hsm⟩
      | exact ⟨_, Step.publish u hu hm hsm⟩
      | exact ⟨_, Step.deploy u hu hm hsm⟩
      | exact ⟨_, Step.verify u hu hm hsm⟩
      | simp [hsm, isActive] at hma
  · have hnoact : activeCount S.sel s = 0 := by
      rw [activeCount, List.countP_eq_zero]
      intro m hm
      have := fun h => hact ⟨m, hm, h⟩
      simpa using this
    obtain ⟨u, hu, rfl⟩ := hselreg n hn
    exact progress_aux hN hnoact S.reg [] (fun x hx => hx) hord
      (fun w hw => absurd hw (List.not_mem_nil w))
      ⟨u, hu, hn, by simpa using hnt⟩

/-- A pointwise rank-nonincreasing update does not increase the measure. -/
theorem measure_update_le :
    ∀ (sel : List String) (s : StateMap) (n : String) (st : DeploymentState),
      stateRank st ≤ stateRank (s n) →
      measureOf sel (updateSt s n st) ≤ measureOf sel s := by
  intro sel s n st hle
  induction sel with
  | nil => exact le_refl _
  | cons a rest ih =>
    rw [measureOf, measureOf, List.map_cons, List.map_cons, List.sum_cons,
      List.sum_cons]
    rw [measureOf, measureOf] at ih
    by_cases han : a = n
    · subst han
      rw [updateSt_self]
      omega
    · rw [updateSt_ne s st han]
      omega

/-- A strict rank decrease at a selected name strictly decreases the
measure. -/
theorem measure_update_lt :
    ∀ (sel : List String) {n : String}, n ∈ sel →
      ∀ (s : StateMap) {st : DeploymentState},
      stateRank st < stateRank (s n) →
      measureOf sel (updateSt s n st) < measureOf sel s := by
  intro sel
  induction sel with
  | nil => intro n hn; cases hn
  | cons a rest ih =>
    intro n hn s st hlt
    rw [measureOf, measureOf, List.map_cons, List.map_cons, List.sum_cons,
      List.sum_cons]
    by_cases han : a = n
    · subst han
      rw [updateSt_self]
      have hrest := measure_update_le rest s a st (le_of_lt hlt)
      rw [measureOf, measureOf] at hrest
      omega
    · rw [updateSt_ne s st han]
      rcases List.mem_cons.mp hn with heq | hmem
      · exact absurd heq.symm han
      · have := ih hmem s hlt
        rw [measureOf, measureOf] at this
        omega

/-- Every step strictly decreases the termination measure. -/
theorem measure_decreases {S : Sched} {s s' : StateMap} (hst : Step S s s') :
    measureOf S.sel s' < measureOf S.sel s := by
  cases hst with
  | start u hreg hsel hp hdeps hslot =>
    exact measure_update_lt S.sel hsel s (by rw [hp]; simp [stateRank])
  | skipDep u hreg hsel hp hdep =>
    exact measure_update_lt S.sel hsel s (by rw [hp]; simp [stateRank])
  | build u hreg hsel h =>
    refine measure_update_lt S.sel hsel s ?_
    rw [h]
    by_cases hb : (S.env u.name).buildOk = true <;> simp [hb, stateRank]
  | publish u hreg hsel h =>
    refine measure_update_lt S.sel hsel s ?_
    rw [h]
    by_cases hq : (S.env u.name).pushOk = true <;> simp [hq, stateRank]
  | deploy u hreg hsel h =>
    refine measure_update_lt S.sel hsel s ?_
    rw [h]
    by_cases hd : (S.env u.name).deployOk = true <;> simp [hd, stateRank]
  | verify u hreg hsel h =>
    refine measure_update_lt S.sel hsel s ?_
    rw [h]
    by_cases hh : (S.env u.name).healthy = true <;> simp [hh, stateRank]

/-- Exactly one record per selected name, none otherwise. -/
theorem recordsOf_count (sel : List String) (hnd : sel.Nodup) (s : StateMap)
    (n : String) :
    (recordsOf sel s).countP (fun r => decide (r.1 = n))
      = if n ∈ sel then 1 else 0 := by
  rw [recordsOf, List.countP_map]
  have hc : sel.countP
        ((fun r : String × DeploymentState => decide (r.1 = n))
          ∘ (fun m => (m, s m)))
      = sel.count n := by
    apply List.countP_congr
    intro m _
    simp [Function.comp]
  rw [hc]
  by_cases hn : n ∈ sel
  · rw [if_pos hn]
    exact List.count_eq_one_of_mem hnd hn
  · rw [if_neg hn]
    exact List.count_eq_zero_of_not_mem hn

/-- C7: with at least one slot, a dependency-ordered registry with distinct
names and selected names drawn from the registry: a reachable state from
which no step is possible has every selected unit terminal; every step
strictly decreases the termination measure (so the invocation ends); every
state map carries exactly one record per selected name and none for other
names; a unit that reached a terminal state never changes again; and a
non-selected name is summarized "skipped — no change detected". -/
theorem deployment_records_complete (S : Sched) (hN : 1 ≤ S.maxConcurrency)
    (hndsel : S.sel.Nodup) (hord : depsBeforeSel S.sel [] S.reg)
    (hselreg : ∀ n ∈ S.sel, ∃ u ∈ S.reg, u.name = n) :
    (∀ s, Reachable S s → (¬ ∃ s', Step S s s') → Completed S s)
    ∧ (∀ s s', Step S s s' → measureOf S.sel s' < measureOf S.sel s)
    ∧ (∀ (s : StateMap) (n : String),
        (recordsOf S.sel s).countP (fun r => decide (r.1 = n))
          = if n ∈ S.sel then 1 else 0)
    ∧ (∀ s s' (n : String), Step S s s' → isTerminal (s n) = true →
        s' n = s n)
    ∧ (∀ (n : String) (recs : List (String × DeploymentState))
        (env : String → StageOutcomes), n ∉ S.sel →
        summaryLine S.sel recs env n = "skipped — no change detected") := by
  refine ⟨?_, ?_, ?_, ?_, ?_⟩
  · intro s _ hstuck
    by_contra hnc
    exact hstuck (progress hN hord hselreg hnc)
  · intro s s' hst
    exact measure_decreases hst
  · intro s n
    exact recordsOf_count S.sel hndsel s n
  · intro s s' n hst ht
    exact step_terminal_fixed hst ht
  · intro n recs env hn
    rw [summaryLine, if_neg hn]

/-- Witness for C7 at the demo invocation: the initial state holds exactly
one record for user-service. -/
theorem deployment_records_complete_witness :
    (recordsOf demoSched.sel initState).countP
        (fun r => decide (r.1 = "user-service")) = 1 :=
  ((deployment_records_complete demoSched (by decide) (by decide)
      (by simp [depsBeforeSel, demoSched, demoRegistry])
      (by decide)).2.2.1 initState "user-service").trans (by decide)

/-- Once past Pending and not Skipped, a unit never becomes Pending or
Skipped along any continuation of the run. -/
theorem not_pending_skipped_along {S : Sched} {a b : StateMap} {n : String}
    (hpath : Relation.ReflTransGen (Step S) a b)
    (h1 : a n ≠ .Pending) (h2 : a n ≠ .Skipped) :
    b n ≠ .Pending ∧ b n ≠ .Skipped := by
  induction hpath with
  | refl => exact ⟨h1, h2⟩
  | tail hxy hstep ih =>
    obtain ⟨ih1, ih2⟩ := ih
    cases hstep with
    | start u hreg hsel hp hdeps hslot =>
      by_cases hn : n = u.name
      · rw [hn] at ih1
        exact absurd hp ih1
      · rw [updateSt_ne _ _ hn]
        exact ⟨ih1, ih2⟩
    | skipDep u hreg hsel hp hdep =>
      by_cases hn : n = u.name
      · rw [hn] at ih1
        exact absurd hp ih1
      · rw [updateSt_ne _ _ hn]
        exact ⟨ih1, ih2⟩
    | build u hreg hsel h =>
      by_cases hn : n = u.name
      · rw [hn, updateSt_self]
        by_cases hb : (S.env u.name).buildOk = true <;> simp [hb]
      · rw [updateSt_ne _ _ hn]
        exact ⟨ih1, ih2⟩
    | publish u hreg hsel h =>
      by_cases hn : n = u.name
      · rw [hn, updateSt_self]
        by_cases hq : (S.env u.name).pushOk = true <;> simp [hq]
      · rw [updateSt_ne _ _ hn]
        exact ⟨ih1, ih2⟩
    | deploy u hreg hsel h =>
      by_cases hn : n = u.name
      · rw [hn, updateSt_self]
        by_cases hd : (S.env u.name).deployOk = true <;> simp [hd]
      · rw [updateSt_ne _ _ hn]
        exact ⟨ih1, ih2⟩
    | verify u hreg hsel h =>
      by_cases hn : n = u.name
      · rw [hn, updateSt_self]
        by_cases hh : (S.env u.name).healthy = true <;> simp [hh]
      · rw [updateSt_ne _ _ hn]
        exact ⟨ih1, ih2⟩

/-- C3: in a completed run over a registry with distinct names, a selected
unit one of whose (directly or transitively reached, through selected
intermediates) selected dependencies ended Failed is itself Skipped, hence
never Succeeded — and at no point of the run was it in Building. -/
theorem dependency_failure_skips (S : Sched) (hnd : NamesNodup S.reg)
    {s : StateMap} (hreach : Reachable S s) (hcomp : Completed S s)
    (u : DeployUnit) (hureg : u ∈ S.reg) (husel : u.name ∈ S.sel)
    {d : String} (hchain : DependsOnTrans S.reg S.sel u.name d)
    (hdsel : d ∈ S.sel) (hfail : s d = .Failed) :
    s u.name = .Skipped
    ∧ s u.name ≠ .Succeeded
    ∧ ∀ s', Reachable S s' → Relation.ReflTransGen (Step S) s' s →
        s' u.name ≠ .Building := by
  have hinv := schedInv_reachable hnd hreach
  have main : ∀ x e, DependsOnTrans S.reg S.sel x e → e ∈ S.sel →
      (s e = .Failed ∨ s e = .Skipped) → x ∈ S.sel → s x = .Skipped := by
    intro x e hch
    induction hch with
    | direct hv he =>
      rename_i v e2
      intro hesel hef hxsel
      have hcl := hinv v hv hxsel
      have hterm : isTerminal (s v.name) = true := hcomp v.name hxsel
      by_cases hsk : s v.name = .Skipped
      · exact hsk
      · by_cases hpend : s v.name = .Pending
        · rw [hpend] at hterm
          simp [isTerminal] at hterm
        · have hds := hcl.1 ⟨hpend, hsk⟩
          have hsucc := hds e2 he hesel
          rcases hef with hf | hf <;> rw [hf] at hsucc <;>
            exact absurd hsucc (by simp)
    | trans hv hw hwsel hsub ih =>
      rename_i v w2 e2
      intro hesel hef hxsel
      have hwsk : s w2 = .Skipped := ih hesel hef hwsel
      have hcl := hinv v hv hxsel
      have hterm : isTerminal (s v.name) = true := hcomp v.name hxsel
      by_cases hsk : s v.name = .Skipped
      · exact hsk
      · by_cases hpend : s v.name = .Pending
        · rw [hpend] at hterm
          simp [isTerminal] at hterm
        · have hds := hcl.1 ⟨hpend, hsk⟩
          have hsucc := hds w2 hw hwsel
          rw [hwsk] at hsucc
          exact absurd hsucc (by simp)
  have hskip := main u.name d hchain hdsel (Or.inl hfail) husel
  refine ⟨hskip, by rw [hskip]; simp, ?_⟩
  intro s' _ hpath hB
  have hns := (not_pending_skipped_along hpath
    (by rw [hB]; simp) (by rw [hB]; simp)).2
  exact hns hskip

/-- Witness for C3: in the concrete dependency run, user-service fails its
build and the api-gateway, which depends on it, ends Skipped. -/
theorem dependency_failure_skips_witness :
    depRun8 "api-gateway" = DeploymentState.Skipped := by
  have h1 : Relation.ReflTransGen (Step depSchedFail) initState depRun1 :=
    Relation.ReflTransGen.tail Relation.ReflTransGen.refl
      (Step.start ⟨"user-service", "services/user-service/", 3001, []⟩
        (by decide) (by decide) (by decide)
        (fun d hd => absurd hd (List.not_mem_nil d)) (by decide))
  have h2 : Relation.ReflTransGen (Step depSchedFail) initState depRun2 :=
    h1.tail
      (Step.build ⟨"user-service", "services/user-service/", 3001, []⟩
        (by decide) (by decide) (by decide))
  have h3 : Relation.ReflTransGen (Step depSchedFail) initState depRun3 :=
    h2.tail
      (Step.start ⟨"product-service", "services/product-service/", 3002, []⟩
        (by decide) (by decide) (by decide)
        (fun d hd => absurd hd (List.not_mem_nil d)) (by decide))
  have h4 : Relation.ReflTransGen (Step depSchedFail) initState depRun4 :=
    h3.tail
      (Step.build ⟨"product-service", "services/product-service/", 3002, []⟩
        (by decide) (by decide) (by decide))
  have h5 : Relation.ReflTransGen (Step depSchedFail) initState depRun5 :=
    h4.tail
      (Step.publish ⟨"product-service", "services/product-service/", 3002, []⟩
        (by decide) (by decide) (by decide))
  have h6 : Relation.ReflTransGen (Step depSchedFail) initState depRun6 :=
    h5.tail
      (Step.deploy ⟨"product-service", "services/product-service/", 3002, []⟩
        (by decide) (by decide) (by decide))
  have h7 : Relation.ReflTransGen (Step depSchedFail) initState depRun7 :=
    h6.tail
      (Step.verify ⟨"product-service", "services/product-service/", 3002, []⟩
        (by decide) (by decide) (by decide))
  have h8 : Relation.ReflTransGen (Step depSchedFail) initState depRun8 :=
    h7.tail
      (Step.skipDep
        ⟨"api-gateway", "services/api-gateway/", 3000,
          ["user-service", "product-service"]⟩
        (by decide) (by decide) (by decide)
        ⟨"user-service", by decide, by decide, Or.inl (by decide)⟩)
  exact (dependency_failure_skips depSchedFail
    (by unfold NamesNodup; decide) h8 (by unfold Completed; decide)
    ⟨"api-gateway", "services/api-gateway/", 3000,
      ["user-service", "product-service"]⟩
    (by decide) (by decide)
    (@DependsOnTrans.direct depSchedFail.reg depSchedFail.sel
      ⟨"api-gateway", "services/api-gateway/", 3000,
        ["user-service", "product-service"]⟩
      "user-service" (by decide) (by decide))
    (by decide) (by decide)).1

/-- In a registry whose units declare no dependencies, no transitive
dependency chain exists at all. -/
theorem no_chain_of_no_deps {reg : List DeployUnit} {sel : List String}
    (hnodeps : ∀ u ∈ reg, u.dependsOn = []) :
    ∀ {x y : String}, ¬ DependsOnTrans reg sel x y := by
  intro x y h
  cases h with
  | direct hv he =>
    rename_i v
    rw [hnodeps v hv] at he
    exact absurd he (List.not_mem_nil _)
  | trans hv hw hwsel hsub =>
    rename_i v w2
    rw [hnodeps v hv] at hw
    exact absurd hw (List.not_mem_nil _)

/-- A terminal state is Succeeded, Failed or Skipped, as an equation. -/
theorem terminal_cases {s : StateMap} {n : String}
    (ht : isTerminal (s n) = true) :
    s n = .Succeeded ∨ s n = .Failed ∨ s n = .Skipped := by
  cases hsn : s n
  case Succeeded => exact Or.inl rfl
  case Failed => exact Or.inr (Or.inl rfl)
  case Skipped => exact Or.inr (Or.inr rfl)
  all_goals simp [hsn, isTerminal] at ht

/-- C1 (failure isolation): fix a registry, a selection and a bound; run
the invocation under two collaborator-outcome environments that differ only
at the unit named `vName`.  Every selected unit `u` other than `vName` that
does not reach `vName` through its dependsOn (directly or transitively via
selected units) ends both completed runs in the same terminal state — in
particular a BuildError, PublishError, DeployError or HealthTimeout of
`vName` neither cancels `u` nor blocks it from terminating nor changes its
terminal state. -/
theorem failure_isolation (reg : List DeployUnit) (sel : List String)
    (env₁ env₂ : String → StageOutcomes) (N : Nat) (vName : String)
    (henv : ∀ w, w ≠ vName → env₁ w = env₂ w)
    (hord : depsBeforeSel sel [] reg) (hnd : NamesNodup reg)
    (u : DeployUnit) (hureg : u ∈ reg) (husel : u.name ∈ sel)
    (hvsel : vName ∈ sel) (hne : u.name ≠ vName)
    (hnodep : ¬ DependsOnTrans reg sel u.name vName)
    {s₁ s₂ : StateMap}
    (hr₁ : Reachable ⟨reg, sel, env₁, N⟩ s₁)
    (hc₁ : Completed ⟨reg, sel, env₁, N⟩ s₁)
    (hr₂ : Reachable ⟨reg, sel, env₂, N⟩ s₂)
    (hc₂ : Completed ⟨reg, sel, env₂, N⟩ s₂) :
    s₁ u.name = s₂ u.name ∧ isTerminal (s₁ u.name) = true := by
  have hinv₁ := schedInv_reachable hnd hr₁
  have hinv₂ := schedInv_reachable hnd hr₂
  have main : ∀ (l : List DeployUnit) (seen : List String),
      (∀ x ∈ l, x ∈ reg) →
      depsBeforeSel sel seen l →
      (∀ w ∈ seen, w ∈ sel → w ≠ vName →
        ¬ DependsOnTrans reg sel w vName → s₁ w = s₂ w) →
      ∀ x ∈ l, x.name ∈ sel → x.name ≠ vName →
        ¬ DependsOnTrans reg sel x.name vName → s₁ x.name = s₂ x.name := by
    intro l
    induction l with
    | nil =>
      intro seen _ _ _ x hx
      cases hx
    | cons a rest ih =>
      intro seen hsub hdb hseen x hx hxsel hxne hxnd
      have hPa : a.name ∈ sel → a.name ≠ vName →
          ¬ DependsOnTrans reg sel a.name vName → s₁ a.name = s₂ a.name := by
        intro hasel hane hand
        have hareg : a ∈ reg := hsub a (by simp)
        have hcl₁ := hinv₁ a hareg hasel
        have hcl₂ := hinv₂ a hareg hasel
        have hterm₁ : isTerminal (s₁ a.name) = true := hc₁ a.name hasel
        have hterm₂ : isTerminal (s₂ a.name) = true := hc₂ a.name hasel
        have hdep_agree : ∀ d ∈ a.dependsOn, d ∈ sel → s₁ d = s₂ d := by
          intro d hd hdsel
          have hdne : d ≠ vName := by
            rintro rfl
            exact hand (DependsOnTrans.direct hareg hd)
          have hdnd : ¬ DependsOnTrans reg sel d vName := by
            intro hchain
            exact hand (DependsOnTrans.trans hareg hd hdsel hchain)
          exact hseen d (hdb.1 d hd hdsel) hdsel hdne hdnd
        rcases terminal_cases hterm₁ with hs1 | hs1 | hs1
        · have hsr₁ : stageResult (env₁ a.name) = .Succeeded := by
            have hc := hcl₁.2.2
            rw [hs1] at hc
            exact hc
          have hds₁ := hcl₁.1 ⟨by rw [hs1]; simp, by rw [hs1]; simp⟩
          rcases terminal_cases hterm₂ with hs2 | hs2 | hs2
          · rw [hs1, hs2]
          · have hsr₂ : stageResult (env₂ a.name) = .Failed := by
              have hc := hcl₂.2.2
              rw [hs2] at hc
              exact hc
            rw [← henv a.name hane, hsr₁] at hsr₂
            exact absurd hsr₂ (by simp)
          · obtain ⟨d, hd, hdsel, hcase⟩ := hcl₂.2.1 hs2
            have hagree := hdep_agree d hd hdsel
            have hsucc := hds₁ d hd hdsel
            rw [hagree] at hsucc
            rcases hcase with hf | hf <;> rw [hf] at hsucc <;>
              exact absurd hsucc (by simp)
        · have hsr₁ : stageResult (env₁ a.name) = .Failed := by
            have hc := hcl₁.2.2
            rw [hs1] at hc
            exact hc
          have hds₁ := hcl₁.1 ⟨by rw [hs1]; simp, by rw [hs1]; simp⟩
          rcases terminal_cases hterm₂ with hs2 | hs2 | hs2
          · have hsr₂ : stageResult (env₂ a.name) = .Succeeded := by
              have hc := hcl₂.2.2
              rw [hs2] at hc
              exact hc
            rw [← henv a.name hane, hsr₁] at hsr₂
            exact absurd hsr₂ (by simp)
          · rw [hs1, hs2]
          · obtain ⟨d, hd, hdsel, hcase⟩ := hcl₂.2.1 hs2
            have hagree := hdep_agree d hd hdsel
            have hsucc := hds₁ d hd hdsel
            rw [hagree] at hsucc
            rcases hcase with hf | hf <;> rw [hf] at hsucc <;>
              exact absurd hsucc (by simp)
        · obtain ⟨d, hd, hdsel, hcase⟩ := hcl₁.2.1 hs1
          have hagree := hdep_agree d hd hdsel
          rcases terminal_cases hterm₂ with hs2 | hs2 | hs2
          · have hds₂ := hcl₂.1 ⟨by rw [hs2]; simp, by rw [hs2]; simp⟩
            have hsucc := hds₂ d hd hdsel
            rw [← hagree] at hsucc
            rcases hcase with hf | hf <;> rw [hf] at hsucc <;>
              exact absurd hsucc (by simp)
          · have hds₂ := hcl₂.1 ⟨by rw [hs2]; simp, by rw [hs2]; simp⟩
            have hsucc := hds₂ d hd hdsel
            rw [← hagree] at hsucc
            rcases hcase with hf | hf <;> rw [hf] at hsucc <;>
              exact absurd hsucc (by simp)
          · rw [hs1, hs2]
      rcases List.mem_cons.mp hx with heq | hxrest
      · rw [heq] at hxsel hxne hxnd ⊢
        exact hPa hxsel hxne hxnd
      · refine ih (a.name :: seen) (fun y hy => hsub y (by simp [hy])) hdb.2
          ?_ x hxrest hxsel hxne hxnd
        intro w hw hwsel hwne hwnd
        rcases List.mem_cons.mp hw with rfl | hwseen
        · exact hPa hwsel hwne hwnd
        · exact hseen w hwseen hwsel hwne hwnd
  refine ⟨main reg [] (fun y hy => hy) hord
    (fun w hw => absurd hw (List.not_mem_nil w)) u hureg husel hne hnodep,
    hc₁ u.name husel⟩

/-- Witness for C1: with the two-unit registry, product-service ends
Succeeded both when user-service's build fails and when everything passes —
the sibling failure does not change its terminal state. -/
theorem failure_isolation_witness :
    pairFail7 "product-service" = pairOk10 "product-service" := by
  have hf1 : Relation.ReflTransGen (Step pairSchedFail) initState pairFail1 :=
    Relation.ReflTransGen.tail Relation.ReflTransGen.refl
      (Step.start ⟨"user-service", "services/user-service/", 3001, []⟩
        (by decide) (by decide) (by decide)
        (fun d hd => absurd hd (List.not_mem_nil d)) (by decide))
  have hf2 : Relation.ReflTransGen (Step pairSchedFail) initState pairFail2 :=
    hf1.tail
      (Step.build ⟨"user-service", "services/user-service/", 3001, []⟩
        (by decide) (by decide) (by decide))
  have hf3 : Relation.ReflTransGen (Step pairSchedFail) initState pairFail3 :=
    hf2.tail
      (Step.start ⟨"product-service", "services/product-service/", 3002, []⟩
        (by decide) (by decide) (by decide)
        (fun d hd => absurd hd (List.not_mem_nil d)) (by decide))
  have hf4 : Relation.ReflTransGen (Step pairSchedFail) initState pairFail4 :=
    hf3.tail
      (Step.build ⟨"product-service", "services/product-service/", 3002, []⟩
        (by decide) (by decide) (by decide))
  have hf5 : Relation.ReflTransGen (Step pairSchedFail) initState pairFail5 :=
    hf4.tail
      (Step.publish ⟨"product-service", "services/product-service/", 3002, []⟩
        (by decide) (by decide) (by decide))
  have hf6 : Relation.ReflTransGen (Step pairSchedFail) initState pairFail6 :=
    hf5.tail
      (Step.deploy ⟨"product-service", "services/product-service/", 3002, []⟩
        (by decide) (by decide) (by decide))
  have hf7 : Relation.ReflTransGen (Step pairSchedFail) initState pairFail7 :=
    hf6.tail
      (Step.verify ⟨"product-service", "services/product-service/", 3002, []⟩
        (by decide) (by decide) (by decide))
  have ho1 : Relation.ReflTransGen (Step pairSchedOk) initState pairOk1 :=
    Relation.ReflTransGen.tail Relation.ReflTransGen.refl
      (Step.start ⟨"user-service", "services/user-service/", 3001, []⟩
        (by decide) (by decide) (by decide)
        (fun d hd => absurd hd (List.not_mem_nil d)) (by decide))
  have ho2 : Relation.ReflTransGen (Step pairSchedOk) initState pairOk2 :=
    ho1.tail
      (Step.build ⟨"user-service", "services/user-service/", 3001, []⟩
        (by decide) (by decide) (by decide))
  have ho3 : Relation.ReflTransGen (Step pairSchedOk) initState pairOk3 :=
    ho2.tail
      (Step.publish ⟨"user-service", "services/user-service/", 3001, []⟩
        (by decide) (by decide) (by decide))
  have ho4 : Relation.ReflTransGen (Step pairSchedOk) initState pairOk4 :=
    ho3.tail
      (Step.deploy ⟨"user-service", "services/user-service/", 3001, []⟩
        (by decide) (by decide) (by decide))
  have ho5 : Relation.ReflTransGen (Step pairSchedOk) initState pairOk5 :=
    ho4.tail
      (Step.verify ⟨"user-service", "services/user-service/", 3001, []⟩
        (by decide) (by decide) (by decide))
  have ho6 : Relation.ReflTransGen (Step pairSchedOk) initState pairOk6 :=
    ho5.tail
      (Step.start ⟨"product-service", "services/product-service/", 3002, []⟩
        (by decide) (by decide) (by decide)
        (fun d hd => absurd hd (List.not_mem_nil d)) (by decide))
  have ho7 : Relation.ReflTransGen (Step pairSchedOk) initState pairOk7 :=
    ho6.tail
      (Step.build ⟨"product-service", "services/product-service/", 3002, []⟩
        (by decide) (by decide) (by decide))
  have ho8 : Relation.ReflTransGen (Step pairSchedOk) initState pairOk8 :=
    ho7.tail
      (Step.publish ⟨"product-service", "services/product-service/", 3002, []⟩
        (by decide) (by decide) (by decide))
  have ho9 : Relation.ReflTransGen (Step pairSchedOk) initState pairOk9 :=
    ho8.tail
      (Step.deploy ⟨"product-service", "services/product-service/", 3002, []⟩
        (by decide) (by decide) (by decide))
  have ho10 : Relation.ReflTransGen (Step pairSchedOk) initState pairOk10 :=
    ho9.tail
      (Step.verify ⟨"product-service", "services/product-service/", 3002, []⟩
        (by decide) (by decide) (by decide))
  have hnodep :
      ¬ DependsOnTrans pairRegistry pairSel "product-service" "user-service" :=
    no_chain_of_no_deps (by decide)
  exact (failure_isolation pairRegistry pairSel envUserBuildFails envAllOk 5
    "user-service"
    (by intro w hw; simp [envUserBuildFails, envAllOk, hw])
    (by simp [depsBeforeSel, pairRegistry])
    (by unfold NamesNodup; decide)
    ⟨"product-service", "services/product-service/", 3002, []⟩
    (by decide) (by decide) (by decide) (by decide) hnodep
    hf7 (by unfold Completed; decide)
    ho10 (by unfold Completed; decide)).1

/-- Witness for C8 at the demo invocation: from the initial state the
number of active units is within the bound. -/
theorem concurrency_bound_holds_witness :
    activeCount demoSched.sel initState ≤ demoSched.maxConcurrency :=
  (concurrency_bound_holds demoSched (by decide)
    (by unfold NamesNodup; decide)).1 initState Relation.ReflTransGen.refl
